import Mathlib

/-!
Verification development for the NeuroArc frontend (React single-page
application).  The definitions below are shallow embeddings of the
handlers and pure helpers found in `frontend/src/App.jsx`,
`frontend/src/components/CVAnalysis.jsx`,
`frontend/src/components/JobList.jsx` and the `Reviews` component.
JavaScript strings become `String`, numbers become `Int`/`Nat` (dates as
millisecond timestamps), `null`/`NaN` become `Option`, and each network
handler becomes a function from the (abstracted) server response to the
trace of requests it issues plus the state it leaves behind.
-/

namespace NeuroArc

/-- A normalized job record as rendered by the frontend (`JobList.jsx`).
`created` is the posted date as a millisecond timestamp, `none` when
`new Date(job.created)` is invalid (`NaN`). -/
structure Job where
  id : Nat
  title : String
  company : String
  description : String
  created : Option Int
deriving DecidableEq, Repr

/-- The boolean contract-type filters passed to `handleJobSearch`
(`App.jsx`, `filters` object). A missing key is `false`. -/
structure SearchFilters where
  fullTime : Bool
  partTime : Bool
  permanent : Bool
  contract : Bool
  graduate : Bool
deriving DecidableEq, Repr

/-- The `URLSearchParams` built in `handleJobSearch` (`App.jsx` lines
74-89): always `q`, `country`, `limit=400`; `location` only when the
location string is truthy (non-empty); one flag parameter per set
filter. -/
def buildSearchParams (q location country : String) (f : SearchFilters) :
    List (String × String) :=
  [("q", q), ("country", country), ("limit", "400")]
  ++ (if location ≠ "" then [("location", location)] else [])
  ++ (if f.fullTime then [("fullTime", "true")] else [])
  ++ (if f.partTime then [("partTime", "true")] else [])
  ++ (if f.permanent then [("permanent", "true")] else [])
  ++ (if f.contract then [("contract", "true")] else [])
  ++ (if f.graduate then [("graduate", "true")] else [])

/-- JavaScript `String.prototype.includes`: `s` contains `pat` as a
contiguous substring. -/
def jsIncludes (s pat : String) : Bool :=
  (List.range (s.length + 1)).any (fun i => pat.data.isPrefixOf (s.data.drop i))

/-- JavaScript `a || b` for an optional string `a`: the fallback fires on
`null`/`undefined` and on the empty string. -/
def jsOrDefault (s : Option String) (d : String) : String :=
  match s with
  | some v => if v = "" then d else v
  | none => d

/-- What the error alert renders (`App.jsx` lines 456-470 and
`CVAnalysis.jsx` lines 116-130): either the fixed server-busy banner or
the error message itself. -/
inductive ErrorDisplay where
  | busyBanner
  | verbatim (msg : String)
deriving DecidableEq, Repr

/-- The error-alert rendering rule: a message containing `buymeacoffee`
is replaced by the fixed server-busy banner, any other message is shown
as-is. -/
def renderErrorAlert (e : String) : ErrorDisplay :=
  if jsIncludes e "buymeacoffee" then ErrorDisplay.busyBanner
  else ErrorDisplay.verbatim e

/-- The message `handleJobSearch` stores in the error state when the
search response is not ok: `err.detail || 'Failed to search jobs'`. -/
def searchErrorMessage (detail : Option String) : String :=
  jsOrDefault detail "Failed to search jobs"

/-- Result of one run of `handleJobSearch` (`App.jsx` lines 65-105):
the list of search requests issued, the jobs placed in state and the
error message stored (if any). -/
structure SearchOutcome where
  requests : List (List (String × String))
  jobsShown : List Job
  errorShown : Option String
deriving DecidableEq, Repr

/-- Shallow embedding of `handleJobSearch`: build the params, issue one
fetch, and either store the jobs or store the error message.  The
response is abstracted as `Except`: `.error detail` is a non-ok response
whose body carried the given `detail` field. -/
def handleJobSearch (q location country : String) (f : SearchFilters)
    (resp : Except (Option String) (List Job)) : SearchOutcome :=
  let params := buildSearchParams q location country f
  match resp with
  | .ok js => ⟨[params], js, none⟩
  | .error detail => ⟨[params], [], some (searchErrorMessage detail)⟩

/-- Response body of a successful `cv/upload` request. -/
structure UploadData where
  cv_id : String
deriving DecidableEq, Repr

/-- JSON body of the `cv/analyze` request built in `handleAnalysis`
(`App.jsx` lines 136-145). -/
structure AnalyzeReq where
  cv_id : String
  job_title : String
  job_description : String
  company_name : String
deriving DecidableEq, Repr

/-- The network requests `handleAnalysis` can issue, in order. -/
inductive ApiRequest where
  | uploadCV
  | analyzeCV (req : AnalyzeReq)
deriving DecidableEq, Repr

/-- The fit analysis held in frontend state (`analysisResult`): the
fields produced by `cv/analyze` plus the `detected_industry` merged in
by `handleAnalysis`.  `score` is `none` when the JavaScript number is
`NaN`. -/
structure Analysis where
  score : Option Int
  summary : String
  matching_skills : List String
  missing_skills : List String
  project_recommendations : List String
  domain_match : String
  detected_industry : String
deriving DecidableEq, Repr

/-- Shallow embedding of `handleAnalysis` (`App.jsx` lines 114-164):
upload the CV first; on a non-ok upload response throw
`detail || 'Failed to upload CV'` without issuing the analyze request;
on success issue `cv/analyze` with the returned `cv_id` and the selected
job's title, description and company.  Returns the request trace and
the thrown/returned result. -/
def handleAnalysis (job : Job) (uploadResp : Except (Option String) UploadData)
    (analyzeResp : AnalyzeReq → Except (Option String) Analysis) :
    List ApiRequest × Except String Analysis :=
  match uploadResp with
  | .error detail =>
      ([ApiRequest.uploadCV], Except.error (jsOrDefault detail "Failed to upload CV"))
  | .ok u =>
      let req : AnalyzeReq := ⟨u.cv_id, job.title, job.description, job.company⟩
      match analyzeResp req with
      | .error detail =>
          ([ApiRequest.uploadCV, ApiRequest.analyzeCV req],
           Except.error (jsOrDefault detail "Analysis failed"))
      | .ok a => ([ApiRequest.uploadCV, ApiRequest.analyzeCV req], Except.ok a)

/-- Value of a maximal leading run of ASCII digits; `none` when there is
no leading digit (the `NaN` case of `parseInt`). -/
def digitsVal (cs : List Char) : Option Nat :=
  let ds := cs.takeWhile Char.isDigit
  if ds.isEmpty then none
  else some (ds.foldl (fun a c => a * 10 + (c.toNat - 48)) 0)

/-- JavaScript `parseInt(s, 10)`: skip leading whitespace, accept an
optional sign, read leading digits, `NaN` (here `none`) otherwise. -/
def jsParseInt (s : String) : Option Int :=
  match s.data.dropWhile Char.isWhitespace with
  | '-' :: rest => (digitsVal rest).map (fun n => -(n : Int))
  | '+' :: rest => (digitsVal rest).map (fun n => (n : Int))
  | cs => (digitsVal cs).map (fun n => (n : Int))

/-- JavaScript truthiness of a nullable string: `null` and `''` are
falsy. -/
def jsTruthy (s : Option String) : Bool :=
  match s with
  | some v => !(v == "")
  | none => false

/-- String interpolation of a JavaScript number that may be `NaN`. -/
def scoreText (o : Option Int) : String :=
  match o with
  | none => "NaN"
  | some n => toString n

/-- JavaScript `String.prototype.toLowerCase` (ASCII range, which covers
the skill strings involved). -/
def toLowerStr (s : String) : String :=
  String.mk (s.data.map Char.toLower)

/-- JavaScript `String.prototype.trim`: strip whitespace from both
ends. -/
def trimStr (s : String) : String :=
  String.mk (((s.data.dropWhile Char.isWhitespace).reverse.dropWhile
    Char.isWhitespace).reverse)

/-- Split a character list at every occurrence of `sep`; splitting the
empty list yields one empty piece, matching JavaScript
`'' .split(sep) = ['']`. -/
def splitCharList (sep : Char) : List Char → List (List Char)
  | [] => [[]]
  | c :: cs =>
    match splitCharList sep cs with
    | [] => if c = sep then [[], [c]] else [[c]]
    | h :: t => if c = sep then [] :: h :: t else (c :: h) :: t

/-- JavaScript `s.split(',')`. -/
def splitOnCommaStr (s : String) : List String :=
  (splitCharList ',' s.data).map String.mk

/-- The skills taken from the `X-Skills-Added` header
(`App.jsx` line 200): split on commas and trim each piece; an absent or
empty header yields no skills. -/
def addedSkillsOf (sah : Option String) : List String :=
  match sah with
  | some s => if s = "" then [] else (splitOnCommaStr s).map (fun t => trimStr t)
  | none => []

/-- Shallow embedding of the state update in `handleOptimize`
(`App.jsx` lines 195-222): when the response carries a truthy
`X-New-Score` header, parse it, drop the added skills from
`missing_skills` case-insensitively, append them to `matching_skills`,
and replace score and summary; otherwise leave the analysis unchanged. -/
def handleOptimizeUpdate (newScoreHeader skillsAddedHeader : Option String)
    (prev : Analysis) : Analysis :=
  if jsTruthy newScoreHeader then
    let newScore := jsParseInt (newScoreHeader.getD "")
    let addedSkills := addedSkillsOf skillsAddedHeader
    { prev with
      score := newScore
      summary := "Optimized! Score improved to " ++ scoreText newScore ++ "%."
      missing_skills := prev.missing_skills.filter
        (fun missing =>
          !(addedSkills.any (fun added => toLowerStr added == toLowerStr missing)))
      matching_skills := prev.matching_skills ++ addedSkills }
  else prev

/-- The classification badge text rendered in `CVAnalysis.jsx`
(lines 241-242): a chain of equality tests on `domain_match`, with
`Strong Match` as the fall-through. -/
def domainBadgeLabel (domain_match : String) : String :=
  if domain_match = "complete_mismatch" then "Field Mismatch"
  else if domain_match = "weak_match" then "Partial Match"
  else "Strong Match"

/-- Whether the results view offers the `Optimize CV` button
(`CVAnalysis.jsx` lines 382-394): offered unless the classification is
`complete_mismatch`, in which case `Find a Better Match` is shown
instead. -/
def offersOptimize (domain_match : String) : Bool :=
  domain_match != "complete_mismatch"

/-- Outcome of dropping a file on the upload zone. -/
inductive DropOutcome where
  | analysisStarted
  | rejected (msg : String)
deriving DecidableEq, Repr

/-- The acceptance test in `handleDrop` (`CVAnalysis.jsx` line 57):
MIME type `application/pdf`, or a filename ending in `.pdf` or
`.docx`. -/
def acceptsDroppedFile (mimeType fileName : String) : Bool :=
  mimeType == "application/pdf"
  || ".pdf".data.isSuffixOf fileName.data
  || ".docx".data.isSuffixOf fileName.data

/-- Shallow embedding of `handleDrop` (`CVAnalysis.jsx` lines 50-64):
an accepted file starts the analysis, any other file only sets the
descriptive error. -/
def handleDrop (mimeType fileName : String) : DropOutcome :=
  if acceptsDroppedFile mimeType fileName then DropOutcome.analysisStarted
  else DropOutcome.rejected "Please upload a PDF or DOCX file."

/-- The literal list the star buttons are generated from (`Reviews`
component, `[1, 2, 3, 4, 5].map(...)`). -/
def starButtons : List Nat := [1, 2, 3, 4, 5]

/-- The operations that change the `rating` state in the `Reviews`
component: clicking one of the five star buttons
(`onClick={() => setRating(star)}`), or the `setRating(5)` reset after a
successful submission. -/
inductive RatingOp where
  | star (i : Fin starButtons.length)
  | submitReset
deriving DecidableEq

/-- One `rating` state transition. -/
def ratingStep (_r : Nat) (op : RatingOp) : Nat :=
  match op with
  | .star i => starButtons.get i
  | .submitReset => 5

/-- The `rating` state after a sequence of operations, starting from the
initializer `useState(5)`. -/
def ratingAfter (ops : List RatingOp) : Nat :=
  ops.foldl ratingStep 5

/-- The JSON body POSTed by `handleSubmit`:
`JSON.stringify({ name, rating, comment })`. -/
structure ReviewBody where
  name : String
  rating : Nat
  comment : String
deriving DecidableEq, Repr

/-- Build the POSTed review body from the current form state. -/
def submitReviewBody (name : String) (rating : Nat) (comment : String) :
    ReviewBody :=
  ⟨name, rating, comment⟩

/-- Milliseconds per day, the divisor `1000 * 60 * 60 * 24` in
`getFilteredJobs`. -/
def msPerDay : Int := 86400000

/-- The age in whole days computed in `getFilteredJobs`
(`JobList.jsx` line 27): `Math.floor((now - postedDate) / msPerDay)`,
floor division on millisecond timestamps. -/
def diffDays (now created : Int) : Int :=
  (now - created).fdiv msPerDay

/-- The predicate of the `jobs.filter` callback in `getFilteredJobs`
(`JobList.jsx` lines 19-35): `all` keeps everything, an unparsable
`created` date is kept, and the dated filters compare the age in whole
days against 1, 3, 7 or 30; an unknown filter value keeps the job. -/
def keepJob (now : Int) (postedFilter : String) (j : Job) : Bool :=
  if postedFilter = "all" then true
  else
    match j.created with
    | none => true
    | some c =>
        let d := diffDays now c
        if postedFilter = "today" then decide (d ≤ 1)
        else if postedFilter = "3days" then decide (d ≤ 3)
        else if postedFilter = "week" then decide (d ≤ 7)
        else if postedFilter = "month" then decide (d ≤ 30)
        else true

/-- Shallow embedding of `getFilteredJobs` (`JobList.jsx`
lines 15-36). -/
def getFilteredJobs (now : Int) (postedFilter : String) (jobs : List Job) :
    List Job :=
  jobs.filter (keepJob now postedFilter)

/-- `JOBS_PER_PAGE` in `JobList.jsx`. -/
def jobsPerPage : Nat := 9

/-- `totalPages = Math.ceil(filteredJobs.length / JOBS_PER_PAGE)`. -/
def totalPagesFor (len : Nat) : Nat :=
  (len + jobsPerPage - 1) / jobsPerPage

/-- `validPage = Math.min(currentPage, totalPages || 1)`
(`JobList.jsx` line 118). -/
def validPageFor (currentPage : Int) (totalPages : Nat) : Int :=
  min currentPage (if totalPages = 0 then 1 else (totalPages : Int))

/-- `filteredJobs.slice(startIndex, startIndex + JOBS_PER_PAGE)` with
`startIndex = (validPage - 1) * JOBS_PER_PAGE` (`JobList.jsx`
lines 120-121). -/
def paginatedJobs (filteredJobs : List Job) (validPage : Int) : List Job :=
  ((filteredJobs.drop ((validPage - 1).toNat * jobsPerPage)).take jobsPerPage)

/-- The page number shown on the i-th pagination button
(`JobList.jsx` lines 336-349), with `m` = `maxPages`, `tp` =
`totalPages`, `vp` = `validPage`. -/
def pageNumFor (m tp vp : Int) (i : Nat) : Int :=
  if tp ≤ m then (i : Int) + 1
  else if vp ≤ (m + 1).fdiv 2 then (i : Int) + 1
  else if tp - m.fdiv 2 ≤ vp then tp - m + 1 + (i : Int)
  else vp - m.fdiv 2 + (i : Int)

/-- The `setCurrentPage` calls in `JobList.jsx`: reset to 1 on a filter
change (line 206), the clamped previous/next buttons (lines 327 and
407), and the numbered planet buttons (line 370).  `tp` is the
`totalPages` value at the moment the button is clicked and `m` the
`maxPages` constant. -/
inductive PageOp where
  | resetToFirst
  | prevPage
  | nextPage (tp : Int)
  | gotoNumbered (m tp : Int) (i : Nat)
deriving DecidableEq

/-- One `currentPage` state transition. -/
def pageStep (cp : Int) (op : PageOp) : Int :=
  match op with
  | .resetToFirst => 1
  | .prevPage => max 1 (cp - 1)
  | .nextPage tp => min tp (cp + 1)
  | .gotoNumbered m tp i => pageNumFor m tp (validPageFor cp (tp.toNat)) i

/-- Side conditions under which each `setCurrentPage` call can fire:
the pagination controls only render when `totalPages > 1`
(`JobList.jsx` line 311), `maxPages` is 3 or 5 (line 113), and a
numbered button index satisfies `i < Math.min(maxPages, totalPages)`
(line 336). -/
def ValidPageOp : PageOp → Prop
  | .resetToFirst => True
  | .prevPage => True
  | .nextPage tp => 1 < tp
  | .gotoNumbered m tp i => (m = 3 ∨ m = 5) ∧ 1 < tp ∧ (i : Int) < min m tp

/-- The `currentPage` state after a sequence of valid operations,
starting from the initializer `useState(1)`. -/
def pageAfter (ops : List PageOp) : Int :=
  ops.foldl pageStep 1

/-- Modelled from the spec: the CV Optimizer backend is not part of the
frontend sources, so its vocabulary is taken from the spec's wording.
The vocabulary of a text is its list of (lower-cased, non-empty)
whitespace-separated words. -/
def vocabularyOf (text : String) : List String :=
  ((splitCharList ' ' text.data).filter (fun w => !w.isEmpty)).map
    (fun w => String.mk (w.map Char.toLower))

/-- The combined vocabulary of the original CV text and the job
description, the "must not fabricate" reference set of the spec. -/
def combinedVocabulary (cvText jobDescription : String) : List String :=
  vocabularyOf cvText ++ vocabularyOf jobDescription

/-- Modelled from the spec: the CV Optimizer "only rewords/reorders
existing content and adds legitimately inferable skill phrasing", so an
optimization run is described by a plan — a sequence of positions into
the combined CV and job-description vocabulary — and the generated
document's words are the words those positions select, in the plan's
order. -/
def optimizedDocumentWords (cvText jobDescription : String)
    (plan : List Nat) : List String :=
  plan.filterMap (fun i => (combinedVocabulary cvText jobDescription).get? i)

/-- JSON body of the `cv/generate/pdf` request built in `handleOptimize`
(`App.jsx` lines 180-186): the `cv/analyze` fields plus the prior fit
analysis (`ats_analysis`, `null` when no analysis is held). -/
structure OptimizeReqBody where
  cv_id : String
  job_title : String
  job_description : String
  company_name : String
  ats_analysis : Option Analysis
deriving DecidableEq, Repr

/-- Shallow embedding of the fetch and error path of `handleOptimize`
(`App.jsx` lines 177-236): one `cv/generate/pdf` request; on a non-ok
response the stored error is `err.detail || 'Failed to generate PDF'`
(the same fallback covers an unparsable body, the `.catch` on line 190).
The success branch's document handling is the separately embedded
`handleOptimizeUpdate` plus blob plumbing, abstracted to `Unit` here.
Returns the request trace and the error stored (if any). -/
def handleOptimizeFetch (cvData : UploadData) (job : Job)
    (ats : Option Analysis) (resp : Except (Option String) Unit) :
    List OptimizeReqBody × Option String :=
  let body : OptimizeReqBody :=
    ⟨cvData.cv_id, job.title, job.description, job.company, ats⟩
  match resp with
  | .ok _ => ([body], none)
  | .error detail => ([body], some (jsOrDefault detail "Failed to generate PDF"))

/-- Shallow embedding of the fetch and error path of
`handleGenerateCoverLetter` (`App.jsx` lines 243-276): one
`cv/cover-letter/pdf` request with the `cv/analyze`-shaped body; on a
non-ok response the stored error is
`err.detail || 'Failed to generate cover letter'` (the `.catch` on
line 263 covers an unparsable body).  The success branch's blob handling
is abstracted to `Unit`. -/
def handleGenerateCoverLetter (cvData : UploadData) (job : Job)
    (resp : Except (Option String) Unit) :
    List AnalyzeReq × Option String :=
  let body : AnalyzeReq := ⟨cvData.cv_id, job.title, job.description, job.company⟩
  match resp with
  | .ok _ => ([body], none)
  | .error detail =>
      ([body], some (jsOrDefault detail "Failed to generate cover letter"))

/-- C6: the search request always carries `q`, `country` and
`limit=400`; it carries `location` iff the location input is non-empty;
and it carries each contract-type flag (with value `true`) iff the
corresponding boolean filter is set. -/
theorem search_params_complete (q location country : String) (f : SearchFilters) :
    ("q", q) ∈ buildSearchParams q location country f ∧
    ("country", country) ∈ buildSearchParams q location country f ∧
    ("limit", "400") ∈ buildSearchParams q location country f ∧
    ((∃ v, ("location", v) ∈ buildSearchParams q location country f) ↔ location ≠ "") ∧
    (("fullTime", "true") ∈ buildSearchParams q location country f ↔ f.fullTime) ∧
    (("partTime", "true") ∈ buildSearchParams q location country f ↔ f.partTime) ∧
    (("permanent", "true") ∈ buildSearchParams q location country f ↔ f.permanent) ∧
    (("contract", "true") ∈ buildSearchParams q location country f ↔ f.contract) := by
  unfold buildSearchParams
  rcases f with ⟨ft, pt, pm, ct, gr⟩
  by_cases hl : location = "" <;>
    cases ft <;> cases pt <;> cases pm <;> cases ct <;> cases gr <;>
    simp [hl]

/-- C3, counterexample: a backend error detail that mentions
`buymeacoffee` is not shown verbatim — the alert replaces it by the
fixed server-busy banner, so the claim "the error detail is shown to the
user verbatim" is false for that detail. -/
theorem search_error_not_verbatim_counterexample :
    (NeuroArc.handleJobSearch "dev" "" "gb"
        ⟨false, false, false, false, false⟩
        (Except.error (some "Rate limited, see buymeacoffee.com"))).errorShown
      = some "Rate limited, see buymeacoffee.com" ∧
    NeuroArc.renderErrorAlert "Rate limited, see buymeacoffee.com"
      ≠ ErrorDisplay.verbatim "Rate limited, see buymeacoffee.com" := by
  constructor
  · rfl
  · decide

/-- C3, amended: every failed external-service request — job search,
CV upload, fit analysis, CV optimization and cover-letter generation —
issues its fetch exactly once (no retry) and surfaces the backend's
error detail as the user-facing message, except that a detail
containing `buymeacoffee` is rendered as the fixed server-busy banner
instead of verbatim. -/
theorem external_error_surfaced_once (q location country : String)
    (f : SearchFilters) (searchResp : Except (Option String) (List Job))
    (job : Job) (uploadResp : Except (Option String) UploadData)
    (analyzeResp : AnalyzeReq → Except (Option String) Analysis)
    (cvData : UploadData) (ats : Option Analysis)
    (genResp clResp : Except (Option String) Unit) :
    (handleJobSearch q location country f searchResp).requests
      = [buildSearchParams q location country f] ∧
    (∀ d, d ≠ "" → searchResp = Except.error (some d) →
      (handleJobSearch q location country f searchResp).errorShown = some d) ∧
    (∀ d, d ≠ "" → uploadResp = Except.error (some d) →
      (handleAnalysis job uploadResp analyzeResp).1 = [ApiRequest.uploadCV] ∧
      (handleAnalysis job uploadResp analyzeResp).2 = Except.error d) ∧
    (∀ u d, d ≠ "" → uploadResp = Except.ok u →
      analyzeResp ⟨u.cv_id, job.title, job.description, job.company⟩
        = Except.error (some d) →
      (handleAnalysis job uploadResp analyzeResp).1
        = [ApiRequest.uploadCV,
           ApiRequest.analyzeCV ⟨u.cv_id, job.title, job.description, job.company⟩] ∧
      (handleAnalysis job uploadResp analyzeResp).2 = Except.error d) ∧
    (handleOptimizeFetch cvData job ats genResp).1
      = [⟨cvData.cv_id, job.title, job.description, job.company, ats⟩] ∧
    (∀ d, d ≠ "" → genResp = Except.error (some d) →
      (handleOptimizeFetch cvData job ats genResp).2 = some d) ∧
    (handleGenerateCoverLetter cvData job clResp).1
      = [⟨cvData.cv_id, job.title, job.description, job.company⟩] ∧
    (∀ d, d ≠ "" → clResp = Except.error (some d) →
      (handleGenerateCoverLetter cvData job clResp).2 = some d) ∧
    (∀ m, jsIncludes m "buymeacoffee" = false →
      renderErrorAlert m = ErrorDisplay.verbatim m) ∧
    (∀ m, jsIncludes m "buymeacoffee" = true →
      renderErrorAlert m = ErrorDisplay.busyBanner) := by
  refine ⟨?_, ?_, ?_, ?_, ?_, ?_, ?_, ?_, ?_, ?_⟩
  · cases searchResp <;> rfl
  · intro d hd hresp
    subst hresp
    simp [handleJobSearch, searchErrorMessage, jsOrDefault, hd]
  · intro d hd hresp
    subst hresp
    refine ⟨rfl, ?_⟩
    simp [handleAnalysis, jsOrDefault, hd]
  · intro u d hd hup han
    subst hup
    refine ⟨?_, ?_⟩ <;> simp [handleAnalysis, han, jsOrDefault, hd]
  · cases genResp <;> rfl
  · intro d hd hresp
    subst hresp
    simp [handleOptimizeFetch, jsOrDefault, hd]
  · cases clResp <;> rfl
  · intro d hd hresp
    subst hresp
    simp [handleGenerateCoverLetter, jsOrDefault, hd]
  · intro m hm
    simp [renderErrorAlert, hm]
  · intro m hm
    simp [renderErrorAlert, hm]

/-- Witness for `external_error_surfaced_once`: concrete failed
responses for the search, upload, analyze, optimize and cover-letter
paths, each surfacing its detail, and the verbatim rendering of a
message without `buymeacoffee`. -/
theorem external_error_surfaced_once_witness :
    (handleJobSearch "dev" "" "gb" ⟨false, false, false, false, false⟩
        (Except.error (some "job api down"))).errorShown = some "job api down" ∧
    (handleAnalysis ⟨1, "Dev", "Acme", "desc", none⟩
        (Except.error (some "bad upload"))
        (fun _ => Except.error (some "llm down"))).1 = [ApiRequest.uploadCV] ∧
    (handleAnalysis ⟨1, "Dev", "Acme", "desc", none⟩
        (Except.ok ⟨"cv-7"⟩)
        (fun _ => Except.error (some "llm down"))).2
      = Except.error "llm down" ∧
    (handleOptimizeFetch ⟨"cv-7"⟩ ⟨1, "Dev", "Acme", "desc", none⟩ none
        (Except.error (some "llm down"))).2 = some "llm down" ∧
    (handleGenerateCoverLetter ⟨"cv-7"⟩ ⟨1, "Dev", "Acme", "desc", none⟩
        (Except.error (some "llm down"))).2 = some "llm down" ∧
    renderErrorAlert "job api down" = ErrorDisplay.verbatim "job api down" := by
  have h1 := external_error_surfaced_once "dev" "" "gb"
    ⟨false, false, false, false, false⟩ (Except.error (some "job api down"))
    ⟨1, "Dev", "Acme", "desc", none⟩ (Except.error (some "bad upload"))
    (fun _ => Except.error (some "llm down")) ⟨"cv-7"⟩ none
    (Except.error (some "llm down")) (Except.error (some "llm down"))
  have h2 := external_error_surfaced_once "dev" "" "gb"
    ⟨false, false, false, false, false⟩ (Except.error (some "job api down"))
    ⟨1, "Dev", "Acme", "desc", none⟩ (Except.ok ⟨"cv-7"⟩)
    (fun _ => Except.error (some "llm down")) ⟨"cv-7"⟩ none
    (Except.error (some "llm down")) (Except.error (some "llm down"))
  refine ⟨h1.2.1 "job api down" (by decide) rfl,
    (h1.2.2.1 "bad upload" (by decide) rfl).1,
    (h2.2.2.2.1 ⟨"cv-7"⟩ "llm down" (by decide) rfl rfl).2,
    h1.2.2.2.2.2.1 "llm down" (by decide) rfl,
    h1.2.2.2.2.2.2.2.1 "llm down" (by decide) rfl,
    h1.2.2.2.2.2.2.2.2.1 "job api down" (by decide)⟩

/-- C4: the analysis pipeline is strictly sequential.  The upload
request always comes first; a failed upload yields exactly one request
and an error, with no analyze request; a successful upload is followed
by exactly one analyze request whose body uses the upload's `cv_id` and
the selected job's title, description and company. -/
theorem analysis_pipeline_sequential (job : Job)
    (uploadResp : Except (Option String) UploadData)
    (analyzeResp : AnalyzeReq → Except (Option String) Analysis) :
    (handleAnalysis job uploadResp analyzeResp).1.head? = some ApiRequest.uploadCV ∧
    (∀ d, uploadResp = Except.error d →
      (handleAnalysis job uploadResp analyzeResp).1 = [ApiRequest.uploadCV] ∧
      (handleAnalysis job uploadResp analyzeResp).2
        = Except.error (jsOrDefault d "Failed to upload CV")) ∧
    (∀ u, uploadResp = Except.ok u →
      (handleAnalysis job uploadResp analyzeResp).1
        = [ApiRequest.uploadCV,
           ApiRequest.analyzeCV ⟨u.cv_id, job.title, job.description, job.company⟩]) := by
  refine ⟨?_, ?_, ?_⟩
  · cases h : uploadResp with
    | error d => simp [handleAnalysis]
    | ok u =>
        cases h2 : analyzeResp ⟨u.cv_id, job.title, job.description, job.company⟩ <;>
          simp [handleAnalysis, h2]
  · intro d hd
    subst hd
    exact ⟨rfl, rfl⟩
  · intro u hu
    subst hu
    cases h2 : analyzeResp ⟨u.cv_id, job.title, job.description, job.company⟩ <;>
      simp [handleAnalysis, h2]

/-- Witness for `analysis_pipeline_sequential`: on a failed upload no
analyze request is issued; on a successful upload the analyze body
carries the upload's `cv_id` and the job's fields. -/
theorem analysis_pipeline_sequential_witness :
    (handleAnalysis ⟨1, "Dev", "Acme", "desc", none⟩
        (Except.error (some "bad file"))
        (fun _ => Except.error none)).1 = [ApiRequest.uploadCV] ∧
    (handleAnalysis ⟨1, "Dev", "Acme", "desc", none⟩
        (Except.ok ⟨"cv-7"⟩)
        (fun _ => Except.error none)).1
      = [ApiRequest.uploadCV, ApiRequest.analyzeCV ⟨"cv-7", "Dev", "desc", "Acme"⟩] := by
  constructor
  · exact (analysis_pipeline_sequential ⟨1, "Dev", "Acme", "desc", none⟩
      (Except.error (some "bad file")) (fun _ => Except.error none)).2.1
        (some "bad file") rfl |>.1
  · exact (analysis_pipeline_sequential ⟨1, "Dev", "Acme", "desc", none⟩
      (Except.ok ⟨"cv-7"⟩) (fun _ => Except.error none)).2.2 ⟨"cv-7"⟩ rfl

/-- C1: after a successful optimization response whose `X-New-Score`
header parses to `n`, the held analysis gets score `n`; a skill stays in
`missing_skills` iff it was there before and matches no added skill
case-insensitively; the added skills are appended to
`matching_skills`; the summary becomes the fixed improvement text; all
other fields are unchanged; and with no `X-New-Score` header the
analysis is left untouched. -/
theorem optimize_updates_analysis (prev : Analysis) (h : String)
    (sah : Option String) (n : Int) (hp : jsParseInt h = some n) :
    (handleOptimizeUpdate (some h) sah prev).score = some n ∧
    (∀ m, m ∈ (handleOptimizeUpdate (some h) sah prev).missing_skills ↔
      m ∈ prev.missing_skills ∧
        ∀ a ∈ addedSkillsOf sah, toLowerStr a ≠ toLowerStr m) ∧
    (handleOptimizeUpdate (some h) sah prev).matching_skills
      = prev.matching_skills ++ addedSkillsOf sah ∧
    (handleOptimizeUpdate (some h) sah prev).summary
      = "Optimized! Score improved to " ++ toString n ++ "%." ∧
    (handleOptimizeUpdate (some h) sah prev).domain_match = prev.domain_match ∧
    (handleOptimizeUpdate (some h) sah prev).project_recommendations
      = prev.project_recommendations ∧
    (handleOptimizeUpdate (some h) sah prev).detected_industry
      = prev.detected_industry ∧
    (∀ p : Analysis, handleOptimizeUpdate none sah p = p) := by
  have hne : h ≠ "" := by
    intro he
    have h0 : jsParseInt "" = none := by decide
    rw [he, h0] at hp
    exact Option.noConfusion hp
  have htr : jsTruthy (some h) = true := by
    simp [jsTruthy, hne]
  refine ⟨?_, ?_, ?_, ?_, ?_, ?_, ?_, ?_⟩
  · simp [handleOptimizeUpdate, htr, hp]
  · intro m
    simp [handleOptimizeUpdate, htr, List.mem_filter, List.any_eq_true]
  · simp [handleOptimizeUpdate, htr]
  · simp [handleOptimizeUpdate, htr, hp, scoreText]
  · simp [handleOptimizeUpdate, htr]
  · simp [handleOptimizeUpdate, htr]
  · simp [handleOptimizeUpdate, htr]
  · intro p
    simp [handleOptimizeUpdate, jsTruthy]

/-- Witness for `optimize_updates_analysis` on a concrete analysis and
concrete headers: score becomes 85, `sql` leaves the missing list
case-insensitively while `Docker` stays, and the added skills land in
the matching list. -/
theorem optimize_updates_analysis_witness :
    (handleOptimizeUpdate (some "85") (some "SQL, Kubernetes")
        ⟨some 40, "s", ["Python"], ["sql", "Docker"], ["p"], "strong_match", "Software Engineering"⟩).score
      = some 85 ∧
    "Docker" ∈ (handleOptimizeUpdate (some "85") (some "SQL, Kubernetes")
        ⟨some 40, "s", ["Python"], ["sql", "Docker"], ["p"], "strong_match", "Software Engineering"⟩).missing_skills ∧
    ¬ "sql" ∈ (handleOptimizeUpdate (some "85") (some "SQL, Kubernetes")
        ⟨some 40, "s", ["Python"], ["sql", "Docker"], ["p"], "strong_match", "Software Engineering"⟩).missing_skills ∧
    (handleOptimizeUpdate (some "85") (some "SQL, Kubernetes")
        ⟨some 40, "s", ["Python"], ["sql", "Docker"], ["p"], "strong_match", "Software Engineering"⟩).matching_skills
      = ["Python", "SQL", "Kubernetes"] := by
  have h := optimize_updates_analysis
    ⟨some 40, "s", ["Python"], ["sql", "Docker"], ["p"], "strong_match", "Software Engineering"⟩
    "85" (some "SQL, Kubernetes") 85 (by decide)
  refine ⟨h.1, ?_, ?_, ?_⟩
  · exact (h.2.1 "Docker").mpr ⟨by decide, by decide⟩
  · intro hmem
    have := ((h.2.1 "sql").mp hmem).2 "SQL" (by decide)
    exact this (by decide)
  · rw [h.2.2.1]
    decide

/-- C5: the badge reads `Field Mismatch` exactly when `domain_match` is
`complete_mismatch`, `Partial Match` exactly when it is `weak_match`,
and `Strong Match` for every other value; the `Optimize CV` action is
offered iff `domain_match` is not `complete_mismatch`. -/
theorem domain_match_drives_ui (dm : String) :
    (domainBadgeLabel dm = "Field Mismatch" ↔ dm = "complete_mismatch") ∧
    (domainBadgeLabel dm = "Partial Match" ↔ dm = "weak_match") ∧
    (dm ≠ "complete_mismatch" → dm ≠ "weak_match" →
      domainBadgeLabel dm = "Strong Match") ∧
    (offersOptimize dm = true ↔ dm ≠ "complete_mismatch") := by
  unfold domainBadgeLabel offersOptimize
  by_cases h1 : dm = "complete_mismatch" <;> by_cases h2 : dm = "weak_match" <;>
    simp [h1, h2]

/-- Witness for `domain_match_drives_ui` at the three concrete
classification values. -/
theorem domain_match_drives_ui_witness :
    domainBadgeLabel "complete_mismatch" = "Field Mismatch" ∧
    domainBadgeLabel "weak_match" = "Partial Match" ∧
    domainBadgeLabel "strong_match" = "Strong Match" ∧
    offersOptimize "complete_mismatch" = false ∧
    offersOptimize "weak_match" = true := by
  refine ⟨(domain_match_drives_ui "complete_mismatch").1.mpr rfl,
    (domain_match_drives_ui "weak_match").2.1.mpr rfl,
    (domain_match_drives_ui "strong_match").2.2.1 (by decide) (by decide),
    ?_, ?_⟩
  · have h := (domain_match_drives_ui "complete_mismatch").2.2.2
    simp at h
    simp [h]
  · exact (domain_match_drives_ui "weak_match").2.2.2.mpr (by decide)

/-- C7: a dropped file whose MIME type is not `application/pdf` and
whose name ends in neither `.pdf` nor `.docx` is rejected with the
descriptive error and starts no analysis (hence no upload request),
while a file satisfying any of the three conditions starts the
analysis. -/
theorem drop_rejects_unsupported_files (mimeType fileName : String) :
    (acceptsDroppedFile mimeType fileName = false →
      handleDrop mimeType fileName
        = DropOutcome.rejected "Please upload a PDF or DOCX file.") ∧
    (acceptsDroppedFile mimeType fileName = true →
      handleDrop mimeType fileName = DropOutcome.analysisStarted) ∧
    (acceptsDroppedFile mimeType fileName = true ↔
      (mimeType = "application/pdf" ∨
       ".pdf".data.isSuffixOf fileName.data = true ∨
       ".docx".data.isSuffixOf fileName.data = true)) := by
  refine ⟨?_, ?_, ?_⟩
  · intro hacc
    simp [handleDrop, hacc]
  · intro hacc
    simp [handleDrop, hacc]
  · simp [acceptsDroppedFile, or_assoc]

/-- Witness for `drop_rejects_unsupported_files`: a plain text file is
rejected with the descriptive message, a `.docx` file starts the
analysis. -/
theorem drop_rejects_unsupported_files_witness :
    handleDrop "text/plain" "notes.txt"
      = DropOutcome.rejected "Please upload a PDF or DOCX file." ∧
    handleDrop "application/octet-stream" "cv.docx"
      = DropOutcome.analysisStarted := by
  constructor
  · exact (drop_rejects_unsupported_files "text/plain" "notes.txt").1 (by decide)
  · exact (drop_rejects_unsupported_files "application/octet-stream" "cv.docx").2.1
      (by decide)

/-- C8: starting from the initial rating 5, every sequence of star
clicks and post-submission resets leaves the rating in `1..5`, the
rating is always an element of the star-button list, and the POSTed
body carries exactly the current rating state. -/
theorem review_rating_in_range (ops : List RatingOp)
    (name comment : String) :
    1 ≤ ratingAfter ops ∧ ratingAfter ops ≤ 5 ∧
    ratingAfter ops ∈ starButtons ∧
    (submitReviewBody name (ratingAfter ops) comment).rating = ratingAfter ops := by
  have key : ∀ (l : List RatingOp) (r : Nat), r ∈ starButtons →
      l.foldl ratingStep r ∈ starButtons := by
    intro l
    induction l with
    | nil => intro r hr; exact hr
    | cons op t ih =>
        intro r hr
        apply ih
        cases op with
        | star i => exact starButtons.get_mem i.1 i.2
        | submitReset => simp [ratingStep, starButtons]
  have hmem : ratingAfter ops ∈ starButtons := key ops 5 (by simp [starButtons])
  have hb : ∀ n ∈ starButtons, 1 ≤ n ∧ n ≤ 5 := by decide
  exact ⟨(hb _ hmem).1, (hb _ hmem).2, hmem, rfl⟩

/-- C9: the posted-date filter returns a subsequence of its input; the
`all` filter returns the whole list; a job with an unparsable date is
always retained; and under `today`/`3days`/`week`/`month` every retained
job with a parsable date is at most 1, 3, 7 or 30 whole days old. -/
theorem posted_filter_sound (now : Int) (pf : String) (jobs : List Job) :
    (getFilteredJobs now pf jobs).Sublist jobs ∧
    getFilteredJobs now "all" jobs = jobs ∧
    (∀ j ∈ jobs, j.created = none → j ∈ getFilteredJobs now pf jobs) ∧
    (∀ j ∈ getFilteredJobs now pf jobs, ∀ c, j.created = some c →
      (pf = "today" → diffDays now c ≤ 1) ∧
      (pf = "3days" → diffDays now c ≤ 3) ∧
      (pf = "week" → diffDays now c ≤ 7) ∧
      (pf = "month" → diffDays now c ≤ 30)) := by
  refine ⟨List.filter_sublist jobs, ?_, ?_, ?_⟩
  · apply List.filter_eq_self.mpr
    intro j _
    simp [keepJob]
  · intro j hj hc
    apply List.mem_filter.mpr
    refine ⟨hj, ?_⟩
    unfold keepJob
    rw [hc]
    split <;> simp
  · intro j hj c hc
    have hkeep := (List.mem_filter.mp hj).2
    unfold keepJob at hkeep
    rw [hc] at hkeep
    refine ⟨?_, ?_, ?_, ?_⟩ <;> intro hpf <;> subst hpf <;>
      simpa using hkeep

/-- Witness for `posted_filter_sound` on a concrete job list: with the
`week` filter a fresh job and an undated job survive, and every
retained dated job is at most seven days old. -/
theorem posted_filter_sound_witness :
    getFilteredJobs 864000000 "week"
        [⟨1, "a", "c", "d", some 777600000⟩,
         ⟨2, "b", "c", "d", none⟩,
         ⟨3, "e", "c", "d", some 0⟩]
      = [⟨1, "a", "c", "d", some 777600000⟩, ⟨2, "b", "c", "d", none⟩] ∧
    getFilteredJobs 864000000 "all"
        [⟨1, "a", "c", "d", some 777600000⟩, ⟨3, "e", "c", "d", some 0⟩]
      = [⟨1, "a", "c", "d", some 777600000⟩, ⟨3, "e", "c", "d", some 0⟩] ∧
    diffDays 864000000 777600000 ≤ 7 := by
  refine ⟨by decide, ?_, ?_⟩
  · have := (posted_filter_sound 864000000 "x"
      [⟨1, "a", "c", "d", some 777600000⟩, ⟨3, "e", "c", "d", some 0⟩]).2.1
    exact this
  · have hmem : (⟨1, "a", "c", "d", some 777600000⟩ : Job) ∈
        getFilteredJobs 864000000 "week"
          [⟨1, "a", "c", "d", some 777600000⟩,
           ⟨2, "b", "c", "d", none⟩,
           ⟨3, "e", "c", "d", some 0⟩] := by decide
    exact ((posted_filter_sound 864000000 "week"
      [⟨1, "a", "c", "d", some 777600000⟩,
       ⟨2, "b", "c", "d", none⟩,
       ⟨3, "e", "c", "d", some 0⟩]).2.2.2
      ⟨1, "a", "c", "d", some 777600000⟩ hmem 777600000 rfl).2.2.1 rfl

/-- Every reachable `currentPage` value is at least 1. -/
theorem pageAfter_pos (ops : List PageOp) (hops : ∀ op ∈ ops, ValidPageOp op) :
    1 ≤ pageAfter ops := by
  have key : ∀ (l : List PageOp) (cp : Int), (∀ op ∈ l, ValidPageOp op) →
      1 ≤ cp → 1 ≤ l.foldl pageStep cp := by
    intro l
    induction l with
    | nil => intro cp _ hcp; exact hcp
    | cons op t ih =>
        intro cp hval hcp
        apply ih _ (fun o ho => hval o (List.mem_cons_of_mem _ ho))
        have hop : ValidPageOp op := hval op (List.mem_cons_self _ _)
        cases op with
        | resetToFirst => exact le_refl 1
        | prevPage => simp [pageStep]
        | nextPage tp =>
            have htp : 1 < tp := hop
            simp only [pageStep, le_min_iff]
            omega
        | gotoNumbered m tp i =>
            simp only [pageStep, pageNumFor]
            have htp : 1 < tp := hop.2.1
            have hm : m = 3 ∨ m = 5 := hop.1
            have hvp : 1 ≤ validPageFor cp tp.toNat := by
              simp only [validPageFor, le_min_iff]
              constructor
              · exact hcp
              · split <;> omega
            rcases hm with hm | hm <;> subst hm
            · rw [show ((3 : Int) + 1).fdiv 2 = 2 from by decide,
                show (3 : Int).fdiv 2 = 1 from by decide]
              split
              · omega
              · split
                · omega
                · split <;> omega
            · rw [show ((5 : Int) + 1).fdiv 2 = 3 from by decide,
                show (5 : Int).fdiv 2 = 2 from by decide]
              split
              · omega
              · split
                · omega
                · split <;> omega
  exact key ops 1 hops le_rfl

/-- C10: for every filtered job list and every `currentPage` reachable
through the pagination controls, the effective page lies between 1 and
`max totalPages 1`, the displayed slice holds at most 9 jobs, and a
non-empty filtered list never shows an empty slice — the view clamps to
the last page. -/
theorem pagination_in_range (now : Int) (pf : String) (jobs : List Job)
    (ops : List PageOp) (hops : ∀ op ∈ ops, ValidPageOp op) :
    1 ≤ validPageFor (pageAfter ops)
        (totalPagesFor (getFilteredJobs now pf jobs).length) ∧
    validPageFor (pageAfter ops)
        (totalPagesFor (getFilteredJobs now pf jobs).length)
      ≤ max ((totalPagesFor (getFilteredJobs now pf jobs).length : Int)) 1 ∧
    (paginatedJobs (getFilteredJobs now pf jobs)
        (validPageFor (pageAfter ops)
          (totalPagesFor (getFilteredJobs now pf jobs).length))).length
      ≤ jobsPerPage ∧
    (getFilteredJobs now pf jobs ≠ [] →
      paginatedJobs (getFilteredJobs now pf jobs)
        (validPageFor (pageAfter ops)
          (totalPagesFor (getFilteredJobs now pf jobs).length)) ≠ []) := by
  have hcp : 1 ≤ pageAfter ops := pageAfter_pos ops hops
  set fj := getFilteredJobs now pf jobs with hfj
  set len := fj.length with hlen
  set tp := totalPagesFor len with htp
  set vp := validPageFor (pageAfter ops) tp with hvp
  have h1 : 1 ≤ vp := by
    rw [hvp]
    simp only [validPageFor, le_min_iff]
    refine ⟨hcp, ?_⟩
    split <;> omega
  have h2 : vp ≤ max (tp : Int) 1 := by
    rw [hvp]
    simp only [validPageFor]
    split <;> omega
  refine ⟨h1, h2, ?_, ?_⟩
  · simp [paginatedJobs, List.length_take]
  · intro hne
    have hlenpos : 0 < len := by
      rw [hlen]
      exact List.length_pos.mpr hne
    have htppos : 0 < tp := by
      rw [htp]
      unfold totalPagesFor jobsPerPage
      omega
    have hvple : vp ≤ (tp : Int) := by
      rw [hvp]
      simp only [validPageFor]
      split
      · omega
      · exact min_le_right _ _
    have hstart : ((vp - 1).toNat * jobsPerPage) < len := by
      have hv1 : (vp - 1).toNat ≤ tp - 1 := by omega
      have : (tp - 1) * jobsPerPage < len := by
        rw [htp]
        unfold totalPagesFor jobsPerPage
        omega
      calc (vp - 1).toNat * jobsPerPage ≤ (tp - 1) * jobsPerPage :=
            Nat.mul_le_mul_right _ hv1
        _ < len := this
    simp only [paginatedJobs]
    intro hempty
    have := congrArg List.length hempty
    simp only [List.length_take, List.length_drop, List.length_nil] at this
    rw [← hlen] at this
    unfold jobsPerPage at this hstart
    omega

/-- Witness for `pagination_in_range`: twelve filtered jobs, a
next-page click from the first page; the second page shows the last
three jobs, within range and non-empty. -/
theorem pagination_in_range_witness :
    (∀ op ∈ [PageOp.nextPage 2], ValidPageOp op) ∧
    validPageFor (pageAfter [PageOp.nextPage 2]) (totalPagesFor 12) = 2 ∧
    paginatedJobs
        (getFilteredJobs 0 "all"
          ((List.range 12).map (fun k => ⟨k, "t", "c", "d", none⟩)))
        2 ≠ [] := by
  have hops : ∀ op ∈ [PageOp.nextPage 2], ValidPageOp op := by
    intro op hop
    simp only [List.mem_singleton] at hop
    subst hop
    exact one_lt_two
  have h := pagination_in_range 0 "all"
    ((List.range 12).map (fun k => ⟨k, "t", "c", "d", none⟩))
    [PageOp.nextPage 2] hops
  refine ⟨hops, by decide, ?_⟩
  have hvp : validPageFor (pageAfter [PageOp.nextPage 2])
      (totalPagesFor (getFilteredJobs 0 "all"
        ((List.range 12).map (fun k => ⟨k, "t", "c", "d", none⟩))).length) = 2 := by
    decide
  have h4 := h.2.2.2 (by decide)
  rw [hvp] at h4
  exact h4

/-- C2: whatever the optimization plan, every word of the generated
document belongs to the combined vocabulary of the original CV and the
job description — the optimizer never introduces a skill absent from
that vocabulary. -/
theorem optimizer_never_fabricates (cvText jobDescription : String)
    (plan : List Nat) (w : String)
    (hw : w ∈ optimizedDocumentWords cvText jobDescription plan) :
    w ∈ combinedVocabulary cvText jobDescription := by
  simp only [optimizedDocumentWords, List.mem_filterMap] at hw
  obtain ⟨i, _, hget⟩ := hw
  exact List.get?_mem hget

/-- Witness for `optimizer_never_fabricates`: a concrete reordering plan
over a concrete CV and job description only emits words of the combined
vocabulary. -/
theorem optimizer_never_fabricates_witness :
    "sql" ∈ optimizedDocumentWords "python developer" "needs sql skills"
      [3, 0] ∧
    "sql" ∈ combinedVocabulary "python developer" "needs sql skills" := by
  have hmem : "sql" ∈ optimizedDocumentWords "python developer"
      "needs sql skills" [3, 0] := by decide
  exact ⟨hmem, optimizer_never_fabricates "python developer"
    "needs sql skills" [3, 0] "sql" hmem⟩

end NeuroArc
